import Mathlib

/-!
Shallow embedding of the Work Time Tracker application (`app/main.py`,
`app/models.py`) for checking its natural-language specification.

The application's core is a session ledger (start/stop/edit/delete of work
sessions) and a category store, persisted through SQLAlchemy over two tables.
We embed the database state as explicit lists of records, the ambient clock
(`datetime.utcnow()`) as an explicit parameter, and each HTTP handler as a
function `... → Except Err DB` returning either the updated state or the
`HTTPException` it raises (status code and detail string from the source).

Timestamps are handled exactly as the source does: they are stored as
strings; `datetime.utcnow().isoformat() + "Z"` produces the stamps; edits
parse inputs with `dateutil.parser.isoparse`, compare the parsed values with
Python `datetime` comparison semantics (naive vs aware comparison raises
`TypeError`, which the handler catches as a 400), and normalize by
`replace(tzinfo=None, microsecond=0).isoformat() + "Z"`.  The `DT` structure
below models Python's `datetime` value; `isoparse` models the common ISO-8601
grammar accepted by `dateutil.parser.isoparse` (full `YYYY-MM-DD` date,
optional `T`-separated time with optional 1-6 fractional-second digits,
optional `Z` or `±HH[:MM]`/`±HHMM` offset); strings outside this subset are
treated as unparsable.
-/

deriving instance DecidableEq for Except

namespace TimeTracker

/-- Model of a Python `datetime.datetime` value: calendar fields plus an
optional UTC offset in seconds (`none` models a naive datetime). -/
structure DT where
  year : Nat
  month : Nat
  day : Nat
  hour : Nat
  minute : Nat
  second : Nat
  microsecond : Nat
  tzoffset : Option Int
deriving DecidableEq, Repr

/-- Decimal digit character for `n % 10`. -/
def dchar (n : Nat) : Char := Char.ofNat (48 + n % 10)

/-- Two-digit zero-padded decimal rendering (faithful to Python `%02d`
for values below 100, which covers every datetime field it is applied to). -/
def pad2 (n : Nat) : List Char := [dchar (n / 10), dchar n]

/-- Four-digit zero-padded decimal rendering (years; `datetime` years are
always at most 9999). -/
def pad4 (n : Nat) : List Char :=
  [dchar (n / 1000), dchar (n / 100), dchar (n / 10), dchar n]

/-- Six-digit zero-padded decimal rendering (microseconds, below 10^6). -/
def pad6 (n : Nat) : List Char :=
  [dchar (n / 100000), dchar (n / 10000), dchar (n / 1000),
   dchar (n / 100), dchar (n / 10), dchar n]

/-- Rendering of the UTC-offset suffix of Python `datetime.isoformat()`:
empty for a naive value, otherwise sign plus `HH:MM` (the offsets this
application can produce are whole minutes). -/
def offsetChars : Option Int → List Char
  | none => []
  | some off =>
    let sgn := if off < 0 then '-' else '+'
    let a := off.natAbs
    sgn :: (pad2 (a / 3600) ++ [':'] ++ pad2 ((a % 3600) / 60))

/-- Character-list rendering of Python `datetime.isoformat()`: the
fractional-second part is present exactly when `microsecond` is nonzero. -/
def isoChars (d : DT) : List Char :=
  pad4 d.year ++ ['-'] ++ pad2 d.month ++ ['-'] ++ pad2 d.day ++ ['T'] ++
  pad2 d.hour ++ [':'] ++ pad2 d.minute ++ [':'] ++ pad2 d.second ++
  (if d.microsecond == 0 then [] else '.' :: pad6 d.microsecond) ++
  offsetChars d.tzoffset

/-- Model of Python `datetime.isoformat()`. -/
def pyIsoformat (d : DT) : String := String.mk (isoChars d)

/-- Model of the source's stamp expression `dt.isoformat() + "Z"`. -/
def stamp (d : DT) : String := pyIsoformat d ++ "Z"

/-- Model of `datetime.replace(tzinfo=None)`; the `now` parameter of each
operation is passed through this, since `datetime.utcnow()` is always naive. -/
def asNaive (d : DT) : DT := { d with tzoffset := none }

/-- Model of the edit handler's normalization
`dt.replace(tzinfo=None, microsecond=0).isoformat() + "Z"`. -/
def normalize (d : DT) : String :=
  stamp { d with microsecond := 0, tzoffset := none }

/-! ### Parsing (model of `dateutil.parser.isoparse`) -/

/-- Value of a decimal digit character, if it is one. -/
def digitVal? (c : Char) : Option Nat :=
  if c.isDigit then some (c.toNat - 48) else none

/-- Reads exactly `k` decimal digits, returning the value and the rest. -/
def readDigits : Nat → Nat → List Char → Option (Nat × List Char)
  | 0, acc, l => some (acc, l)
  | _ + 1, _, [] => none
  | k + 1, acc, c :: l =>
    match digitVal? c with
    | some v => readDigits k (acc * 10 + v) l
    | none => none

/-- Reads up to six fractional-second digits, returning the accumulated
value, the digit count, and the rest. -/
def readFrac : List Char → Nat → Nat → Nat × Nat × List Char
  | [], acc, cnt => (acc, cnt, [])
  | c :: l, acc, cnt =>
    match digitVal? c with
    | some v => if cnt < 6 then readFrac l (acc * 10 + v) (cnt + 1) else (acc, cnt, c :: l)
    | none => (acc, cnt, c :: l)

/-- Parses the timezone suffix: empty (naive), `Z`, or `±HH[:MM]`/`±HHMM`. -/
def parseTZ : List Char → Option (Option Int)
  | [] => some none
  | ['Z'] => some (some 0)
  | c :: l =>
    if c = '+' ∨ c = '-' then
      let sgn : Int := if c = '+' then 1 else -1
      match readDigits 2 0 l with
      | some (hh, []) =>
        if hh < 24 then some (some (sgn * ((hh * 3600 : Nat) : Int))) else none
      | some (hh, ':' :: l2) =>
        match readDigits 2 0 l2 with
        | some (mm, []) =>
          if hh < 24 ∧ mm < 60 then
            some (some (sgn * ((hh * 3600 + mm * 60 : Nat) : Int)))
          else none
        | _ => none
      | some (hh, l2) =>
        match readDigits 2 0 l2 with
        | some (mm, []) =>
          if hh < 24 ∧ mm < 60 then
            some (some (sgn * ((hh * 3600 + mm * 60 : Nat) : Int)))
          else none
        | _ => none
      | none => none
    else none

/-- Parses the time-of-day part `HH[:MM[:SS[.ffffff]]]` plus timezone,
returning `(hour, minute, second, microsecond, tzoffset)`. -/
def parseTime (l : List Char) : Option (Nat × Nat × Nat × Nat × Option Int) :=
  match readDigits 2 0 l with
  | none => none
  | some (h, rest) =>
    match rest with
    | ':' :: r2 =>
      match readDigits 2 0 r2 with
      | none => none
      | some (mi, rest2) =>
        match rest2 with
        | ':' :: r3 =>
          match readDigits 2 0 r3 with
          | none => none
          | some (s, rest3) =>
            match rest3 with
            | '.' :: r4 =>
              let (acc, cnt, r5) := readFrac r4 0 0
              if 1 ≤ cnt then
                match parseTZ r5 with
                | some tz => some (h, mi, s, acc * 10 ^ (6 - cnt), tz)
                | none => none
              else none
            | ',' :: r4 =>
              let (acc, cnt, r5) := readFrac r4 0 0
              if 1 ≤ cnt then
                match parseTZ r5 with
                | some tz => some (h, mi, s, acc * 10 ^ (6 - cnt), tz)
                | none => none
              else none
            | _ =>
              match parseTZ rest3 with
              | some tz => some (h, mi, s, 0, tz)
              | none => none
        | _ =>
          match parseTZ rest2 with
          | some tz => some (h, mi, 0, 0, tz)
          | none => none
    | _ =>
      match parseTZ rest with
      | some tz => some (h, 0, 0, 0, tz)
      | none => none

/-- Gregorian leap-year test. -/
def isLeap (y : Nat) : Bool := y % 4 == 0 && (y % 100 != 0 || y % 400 == 0)

/-- Number of days in a month. -/
def daysInMonth (y mo : Nat) : Nat :=
  match mo with
  | 2 => if isLeap y then 29 else 28
  | 4 => 30
  | 6 => 30
  | 9 => 30
  | 11 => 30
  | _ => 31

/-- Parses a full character list as an ISO-8601 datetime and validates the
fields exactly as `datetime.datetime` construction would (year at least 1,
month 1-12, day within the month, hour below 24, minute and second below 60). -/
def parseChars (l : List Char) : Option DT :=
  match readDigits 4 0 l with
  | some (y, '-' :: r1) =>
    match readDigits 2 0 r1 with
    | some (mo, '-' :: r2) =>
      match readDigits 2 0 r2 with
      | some (dy, rest) =>
        let time? : Option (Nat × Nat × Nat × Nat × Option Int) :=
          match rest with
          | [] => some (0, 0, 0, 0, none)
          | 'T' :: r3 => parseTime r3
          | _ => none
        match time? with
        | some (h, mi, s, micro, tz) =>
          if 1 ≤ y ∧ 1 ≤ mo ∧ mo ≤ 12 ∧ 1 ≤ dy ∧ dy ≤ daysInMonth y mo ∧
             h ≤ 23 ∧ mi ≤ 59 ∧ s ≤ 59 then
            some ⟨y, mo, dy, h, mi, s, micro, tz⟩
          else none
        | none => none
      | _ => none
    | _ => none
  | _ => none

/-- Model of `dateutil.parser.isoparse`; `none` models a raised
`ValueError` (or any parse exception). -/
def isoparse (s : String) : Option DT := parseChars s.data

/-! ### Instants and comparison -/

/-- Days strictly before January 1 of year `y` counting from year 1. -/
def daysBeforeYear (y : Nat) : Nat :=
  let p := y - 1
  (365 * p + p / 4 + p / 400) - p / 100

/-- Cumulative days before each month in a non-leap year. -/
def monthCum (mo : Nat) : Nat :=
  match mo with
  | 1 => 0
  | 2 => 31
  | 3 => 59
  | 4 => 90
  | 5 => 120
  | 6 => 151
  | 7 => 181
  | 8 => 212
  | 9 => 243
  | 10 => 273
  | 11 => 304
  | 12 => 334
  | _ => 0

/-- Days before the first of the month within the year. -/
def daysBeforeMonth (y mo : Nat) : Nat :=
  monthCum mo + (if 3 ≤ mo ∧ isLeap y = true then 1 else 0)

/-- Day count of a datetime's date from the epoch year 1. -/
def DT.toDays (d : DT) : Nat :=
  daysBeforeYear d.year + daysBeforeMonth d.year d.month + (d.day - 1)

/-- Wall-clock value in microseconds, ignoring the offset.  For valid
datetimes this is a strictly monotone encoding of the field tuple, so
comparing these values agrees with Python's naive-datetime comparison. -/
def DT.naiveMicro (d : DT) : Int :=
  ((d.toDays * 86400 + d.hour * 3600 + d.minute * 60 + d.second : Nat) : Int)
    * 1000000 + (d.microsecond : Int)

/-- Absolute instant in microseconds for an aware datetime (wall clock
minus offset); agrees with Python's aware-datetime comparison. -/
def DT.instantMicro (d : DT) : Int :=
  d.naiveMicro - (d.tzoffset.getD 0) * 1000000

/-- Python `a <= b` on datetimes: defined when both are naive or both are
aware, and a `TypeError` (modelled as `none`) on a mixed pair. -/
def pyLE? (a b : DT) : Option Bool :=
  match a.tzoffset, b.tzoffset with
  | none, none => some (decide (a.naiveMicro ≤ b.naiveMicro))
  | some _, some _ => some (decide (a.instantMicro ≤ b.instantMicro))
  | _, _ => none

/-- Python `a - b` on datetimes in microseconds: `TypeError` (modelled as
`none`) on a mixed naive/aware pair. -/
def pySub? (a b : DT) : Option Int :=
  match a.tzoffset, b.tzoffset with
  | none, none => some (a.naiveMicro - b.naiveMicro)
  | some _, some _ => some (a.instantMicro - b.instantMicro)
  | _, _ => none

/-! ### Duration formatting (`format_time_diff` in `app/main.py`) -/

/-- Python `f"{n:02d}"`: decimal rendering zero-padded to total width 2,
sign included in the width. -/
def py02d (n : Int) : String :=
  let sgn := if n < 0 then "-" else ""
  let ds := toString n.natAbs
  sgn ++ String.mk (List.replicate (2 - (sgn.length + ds.length)) '0') ++ ds

/-- Rendering of a second count as `HH:MM:SS` with Python floor-division
and nonnegative-remainder semantics (`//` and `%` with positive divisors). -/
def renderHMS (ts : Int) : String :=
  py02d (Int.ediv ts 3600) ++ ":" ++ py02d (Int.ediv (Int.emod ts 3600) 60) ++
  ":" ++ py02d (Int.emod ts 60)

/-- Model of `format_time_diff(start_iso, end_iso)`.  The ambient
`datetime.utcnow()` is the explicit `now` parameter (always treated as
naive).  Any exception inside the `try` block — parse failure of either
string, or the `TypeError` from subtracting a naive and an aware datetime —
yields the sentinel `"00:00:00"`.  `int(delta.total_seconds())` truncates
toward zero, which is `Int.div` on the exact microsecond count. -/
def format_time_diff (start_iso : String) (end_iso : Option String) (now : DT) : String :=
  match isoparse start_iso with
  | none => "00:00:00"
  | some start =>
    let endDT? : Option DT :=
      match end_iso with
      | some e => if e = "" then some (asNaive now) else isoparse e
      | none => some (asNaive now)
    match endDT? with
    | none => "00:00:00"
    | some en =>
      match pySub? en start with
      | none => "00:00:00"
      | some deltaMicro => renderHMS (Int.tdiv deltaMicro 1000000)

/-! ### Data model (`app/models.py`) -/

/-- Row of the `categories` table.  `is_active` is an integer flag in the
source (1 = active, 0 = soft deleted). -/
structure Category where
  id : Int
  name : String
  is_active : Int
  sort_order : Int
  created_utc : String
deriving DecidableEq, Repr

/-- Row of the `sessions` table; `end_utc = none` means the session is
running. -/
structure Session where
  id : Int
  category_id : Option Int
  description : String
  start_utc : String
  end_utc : Option String
  created_utc : String
  updated_utc : String
deriving DecidableEq, Repr

/-- Database state: the two tables, each as a list of rows in storage
order. -/
structure DB where
  categories : List Category
  sessions : List Session
deriving DecidableEq, Repr

/-- Error raised by a handler: the `HTTPException` status code and detail
string from the source.  Under the specification's stated mapping,
`ValidationError` and `ConflictError` surface as status 400 and
`NotFoundError` as status 404. -/
structure Err where
  status : Nat
  detail : String
deriving DecidableEq, Repr

def errAlreadyRunning : Err := ⟨400, "A session is already running. Stop it first."⟩

def errCategoryNotFound : Err := ⟨404, "Category not found or inactive."⟩

def errNoActive : Err := ⟨400, "No active session to stop."⟩

def errSessionNotFound : Err := ⟨404, "Session not found."⟩

/-- The source formats the caught exception's text into the detail
(`"Invalid datetime format: ..."`); the model keeps the fixed head. -/
def errInvalidDatetime : Err := ⟨400, "Invalid datetime format"⟩

def errEndNotAfter : Err := ⟨400, "End time must be after start time."⟩

def errDeleteActive : Err := ⟨400, "Cannot delete the active session. Stop it first."⟩

def errEmptyName : Err := ⟨400, "Category name cannot be empty."⟩

def errCategoryExists : Err := ⟨400, "Category already exists."⟩

def errCategoryNotFoundPlain : Err := ⟨404, "Category not found."⟩

/-! ### Helper functions (`app/main.py`) -/

/-- Model of `get_active_session`: first session with `end_utc` NULL. -/
def get_active_session (db : DB) : Option Session :=
  db.sessions.find? (fun s => s.end_utc.isNone)

/-- Model of `get_category_by_id`: first category with the given id that is
active (`is_active == 1`).  Note the active filter: this is the only
category lookup in the source, used for validation and for display. -/
def get_category_by_id (db : DB) (category_id : Int) : Option Category :=
  db.categories.find? (fun c => c.id == category_id && c.is_active == 1)

/-- Python truthiness of an `Optional[int]` form field: `None` and `0` are
falsy. -/
def truthyInt (v : Option Int) : Bool := v.getD 0 != 0

/-- Python truthiness of an `Optional[str]` form field: `None` and the
empty string are falsy; returns the string when truthy. -/
def truthyStr : Option String → Option String
  | none => none
  | some s => if s = "" then none else some s

/-- Model of Python `str.strip()`. -/
def pyStrip (s : String) : String :=
  String.mk (((s.data.dropWhile Char.isWhitespace).reverse.dropWhile
    Char.isWhitespace).reverse)

/-- Replaces the first element satisfying `p` by its image under `f`
(SQLAlchemy `query(...).first()` followed by in-place mutation and commit). -/
def updateP (p : α → Bool) (f : α → α) : List α → List α
  | [] => []
  | a :: l => if p a then f a :: l else a :: updateP p f l

/-! ### Session operations (`app/main.py`) -/

/-- The session row inserted by `start_session`. -/
def mkSession (newId : Int) (category_id : Option Int) (descr : String)
    (now : DT) : Session :=
  { id := newId, category_id := category_id, description := descr,
    start_utc := stamp (asNaive now), end_utc := none,
    created_utc := stamp (asNaive now), updated_utc := stamp (asNaive now) }

/-- Model of the `POST /start` handler.  `now` models `datetime.utcnow()`
(naive); `newId` models the id the storage layer assigns to the inserted
row. -/
def start_session (category_id : Option Int) (descr : String) (now : DT)
    (newId : Int) (db : DB) : Except Err DB :=
  if (get_active_session db).isSome then
    .error errAlreadyRunning
  else if truthyInt category_id &&
      (get_category_by_id db (category_id.getD 0)).isNone then
    .error errCategoryNotFound
  else
    .ok { db with sessions := db.sessions ++ [mkSession newId category_id descr now] }

/-- The closing update applied by `stop_session` to the active session. -/
def closeWith (now : DT) (s : Session) : Session :=
  { s with end_utc := some (stamp (asNaive now)),
           updated_utc := stamp (asNaive now) }

/-- Model of the `POST /stop` handler. -/
def stop_session (now : DT) (db : DB) : Except Err DB :=
  match get_active_session db with
  | none => .error errNoActive
  | some _ =>
    .ok { db with sessions :=
      (updateP (fun s => s.end_utc.isNone) (closeWith now) db.sessions) }

/-- Model of the `POST /sessions/{id}/delete` handler. -/
def delete_session (session_id : Int) (db : DB) : Except Err DB :=
  match db.sessions.find? (fun s => s.id == session_id) with
  | none => .error errSessionNotFound
  | some s =>
    if s.end_utc.isNone then
      .error errDeleteActive
    else
      .ok { db with sessions := db.sessions.eraseP (fun t => t.id == session_id) }

/-- Field update applied by `edit_session` on success.  The source sets
`description = description or ""`, which is the supplied string itself. -/
def applyEditFields (category_id : Option Int) (descr : String)
    (startNorm : String) (endNorm : Option String) (now : DT)
    (s : Session) : Session :=
  { s with category_id := category_id, description := descr,
           start_utc := startNorm, end_utc := endNorm,
           updated_utc := stamp (asNaive now) }

/-- End-time validation and normalization inside `edit_session`'s `try`
block, given the already-parsed start value: an untruthy `end_utc` form
value means no end; otherwise it must parse, and the comparison
`end_dt <= start_dt` either raises `TypeError` on a naive/aware mix
(caught by the same `except` as a parse failure) or rejects a
non-strictly-later end. -/
def editEndResult (sdt : DT) (end_utc : Option String) :
    Except Err (Option String) :=
  match truthyStr end_utc with
  | none => .ok none
  | some e =>
    match isoparse e with
    | none => .error errInvalidDatetime
    | some edt =>
      match pyLE? edt sdt with
      | none => .error errInvalidDatetime
      | some true => .error errEndNotAfter
      | some false => .ok (some (normalize edt))

/-- Model of the `POST /sessions/{id}/edit` handler, following the source's
order of checks: session lookup, time parsing/validation/normalization,
category validation, then the in-place update. -/
def edit_session (session_id : Int) (category_id : Option Int)
    (descr : String) (start_utc : String) (end_utc : Option String)
    (now : DT) (db : DB) : Except Err DB :=
  match db.sessions.find? (fun s => s.id == session_id) with
  | none => .error errSessionNotFound
  | some _ =>
    match isoparse start_utc with
    | none => .error errInvalidDatetime
    | some sdt =>
      match editEndResult sdt end_utc with
      | .error er => .error er
      | .ok endNorm =>
        if truthyInt category_id &&
            (get_category_by_id db (category_id.getD 0)).isNone then
          .error errCategoryNotFound
        else
          .ok { db with sessions :=
            (updateP (fun s => s.id == session_id)
              (applyEditFields category_id descr (normalize sdt) endNorm now)
              db.sessions) }

/-! ### Category operations (`app/main.py`) -/

/-- The sort order assigned to a new category: the handler fetches the row
with the greatest `sort_order` (`order_by(desc).first()`) and adds 10, or
uses 10 when the table is empty. -/
def nextSortVal (l : List Category) : Int :=
  match (l.map (·.sort_order)).max? with
  | some m => m + 10
  | none => 10

/-- The category row inserted by `add_category` (`is_active` defaults to 1). -/
def mkCategory (newId : Int) (nm : String) (sortOrder : Int) (now : DT) :
    Category :=
  { id := newId, name := nm, is_active := 1, sort_order := sortOrder,
    created_utc := stamp (asNaive now) }

/-- Model of the `POST /categories/add` handler. -/
def add_category (name : String) (now : DT) (newId : Int) (db : DB) :
    Except Err DB :=
  let nm := pyStrip name
  if nm = "" then
    .error errEmptyName
  else if (db.categories.find? (fun c => c.name == nm)).isSome then
    .error errCategoryExists
  else
    .ok { db with categories := db.categories ++
      [mkCategory newId nm (nextSortVal db.categories) now] }

/-- Model of the `POST /categories/{id}/delete` handler (soft delete). -/
def delete_category (category_id : Int) (db : DB) : Except Err DB :=
  match db.categories.find? (fun c => c.id == category_id) with
  | none => .error errCategoryNotFoundPlain
  | some _ =>
    .ok { db with categories :=
      (updateP (fun c => c.id == category_id)
        (fun c => { c with is_active := 0 }) db.categories) }

/-- Category name shown for a session row on the home page and in the CSV
export: `cat = get_category_by_id(db, sess.category_id) if sess.category_id
else None`, then `cat.name if cat else "(No Category)"`. -/
def displayCategoryName (db : DB) (s : Session) : String :=
  if truthyInt s.category_id then
    match get_category_by_id db (s.category_id.getD 0) with
    | some c => c.name
    | none => "(No Category)"
  else "(No Category)"

/-- The active categories offered in selection lists (the home page filters
`is_active == 1`; display ordering by `sort_order` does not affect
membership). -/
def listActive (db : DB) : List Category :=
  db.categories.filter (fun c => c.is_active == 1)

/-! ### Operation sequences for the invariant claim -/

/-- One Start/Stop/Delete call with its inputs (the clock value and the
storage-assigned id are part of the call). -/
inductive Op where
  | start (category_id : Option Int) (descr : String) (now : DT) (newId : Int)
  | stop (now : DT)
  | delete (session_id : Int)
deriving DecidableEq, Repr

/-- Applies one call; a refused call (an error response) leaves the
database unchanged. -/
def applyOp (db : DB) : Op → DB
  | .start cid d now nid =>
    match start_session cid d now nid db with
    | .ok db' => db'
    | .error _ => db
  | .stop now =>
    match stop_session now db with
    | .ok db' => db'
    | .error _ => db
  | .delete sid =>
    match delete_session sid db with
    | .ok db' => db'
    | .error _ => db

/-- Applies a sequence of calls in order. -/
def applyOps (db : DB) : List Op → DB
  | [] => db
  | op :: ops => applyOps (applyOp db op) ops

/-- Number of running sessions (rows with `end_utc` NULL). -/
def runningCount (l : List Session) : Nat :=
  (l.filter (fun s => s.end_utc.isNone)).length

/-- The active-session invariant: at most one running session. -/
def atMostOneRunning (db : DB) : Prop := runningCount db.sessions ≤ 1

/-! ### Persisted-timestamp format -/

/-- Whether `s` is an ISO-8601 timestamp with exactly seconds precision, no
UTC offset, and a literal trailing `Z`, such as `2026-01-27T15:53:55Z`:
twenty characters, digits and fixed separators in the documented
positions. -/
def secondsPrecisionZ (s : String) : Bool :=
  match s.data with
  | [y1, y2, y3, y4, '-', m1, m2, '-', d1, d2, 'T',
     h1, h2, ':', n1, n2, ':', s1, s2, 'Z'] =>
    y1.isDigit && y2.isDigit && y3.isDigit && y4.isDigit &&
    m1.isDigit && m2.isDigit && d1.isDigit && d2.isDigit &&
    h1.isDigit && h2.isDigit && n1.isDigit && n2.isDigit &&
    s1.isDigit && s2.isDigit
  | _ => false

/-! ### Lemmas: timestamp rendering -/

theorem dchar_isDigit (n : Nat) : (dchar n).isDigit = true := by
  have h : n % 10 < 10 := Nat.mod_lt _ (by decide)
  unfold dchar
  set k := n % 10 with hk
  interval_cases k <;> decide

theorem normalize_data (d : DT) : (normalize d).data =
    [dchar (d.year/1000), dchar (d.year/100), dchar (d.year/10), dchar d.year, '-',
     dchar (d.month/10), dchar d.month, '-', dchar (d.day/10), dchar d.day, 'T',
     dchar (d.hour/10), dchar d.hour, ':', dchar (d.minute/10), dchar d.minute, ':',
     dchar (d.second/10), dchar d.second, 'Z'] := rfl

/-- Every string produced by the edit handler's normalization has the
seconds-precision trailing-`Z` shape. -/
theorem secondsPrecisionZ_normalize (d : DT) :
    secondsPrecisionZ (normalize d) = true := by
  unfold secondsPrecisionZ
  rw [normalize_data]
  simp [dchar_isDigit]

theorem stamp_micro_data (d : DT) (h : d.microsecond ≠ 0) (ht : d.tzoffset = none) :
    (stamp d).data =
    [dchar (d.year/1000), dchar (d.year/100), dchar (d.year/10), dchar d.year, '-',
     dchar (d.month/10), dchar d.month, '-', dchar (d.day/10), dchar d.day, 'T',
     dchar (d.hour/10), dchar d.hour, ':', dchar (d.minute/10), dchar d.minute, ':',
     dchar (d.second/10), dchar d.second, '.',
     dchar (d.microsecond/100000), dchar (d.microsecond/10000), dchar (d.microsecond/1000),
     dchar (d.microsecond/100), dchar (d.microsecond/10), dchar d.microsecond, 'Z'] := by
  simp [stamp, pyIsoformat, isoChars, pad4, pad2, pad6, offsetChars, ht, h]

/-- A stamp of a naive clock value with nonzero microseconds carries a
fractional-second part and so is not in the seconds-precision shape. -/
theorem secondsPrecisionZ_stamp_micro (d : DT) (h : d.microsecond ≠ 0)
    (ht : d.tzoffset = none) : secondsPrecisionZ (stamp d) = false := by
  unfold secondsPrecisionZ
  rw [stamp_micro_data d h ht]
  rfl

theorem stamp_nomicro_data (d : DT) (h : d.microsecond = 0) (ht : d.tzoffset = none) :
    (stamp d).data =
    [dchar (d.year/1000), dchar (d.year/100), dchar (d.year/10), dchar d.year, '-',
     dchar (d.month/10), dchar d.month, '-', dchar (d.day/10), dchar d.day, 'T',
     dchar (d.hour/10), dchar d.hour, ':', dchar (d.minute/10), dchar d.minute, ':',
     dchar (d.second/10), dchar d.second, 'Z'] := by
  simp [stamp, pyIsoformat, isoChars, pad4, pad2, offsetChars, ht, h]

/-- A stamp of a naive clock value with zero microseconds is in the
seconds-precision shape. -/
theorem secondsPrecisionZ_stamp_nomicro (d : DT) (h : d.microsecond = 0)
    (ht : d.tzoffset = none) : secondsPrecisionZ (stamp d) = true := by
  unfold secondsPrecisionZ
  rw [stamp_nomicro_data d h ht]
  simp [dchar_isDigit]

/-! ### Lemmas: running-session counting and first-match updates -/

theorem runningCount_cons (s : Session) (l : List Session) :
    runningCount (s :: l) = (if s.end_utc.isNone then 1 else 0) + runningCount l := by
  by_cases h : s.end_utc.isNone <;> simp [runningCount, List.filter_cons, h] <;> omega

theorem runningCount_append (l1 l2 : List Session) :
    runningCount (l1 ++ l2) = runningCount l1 + runningCount l2 := by
  simp [runningCount, List.filter_append]

theorem runningCount_eq_zero_of_none (l : List Session)
    (h : l.find? (fun s => s.end_utc.isNone) = none) : runningCount l = 0 := by
  rw [List.find?_eq_none] at h
  have hf : l.filter (fun s => s.end_utc.isNone) = [] := by
    rw [List.filter_eq_nil_iff]
    exact fun a ha => by simpa using h a ha
  simp [runningCount, hf]

theorem runningCount_updateP_close (now : DT) (l : List Session) (a : Session)
    (h : l.find? (fun s => s.end_utc.isNone) = some a) :
    runningCount (updateP (fun s => s.end_utc.isNone) (closeWith now) l) + 1 =
    runningCount l := by
  induction l with
  | nil => simp at h
  | cons b l ih =>
    by_cases hb : b.end_utc.isNone
    · simp [updateP, hb, runningCount_cons, closeWith]
      omega
    · rw [List.find?_cons_of_neg _ (by simpa using hb)] at h
      simp [updateP, hb, runningCount_cons]
      have := ih h
      omega

theorem runningCount_updateP_close_le (now : DT) (l : List Session) :
    runningCount (updateP (fun s => s.end_utc.isNone) (closeWith now) l) ≤
    runningCount l := by
  induction l with
  | nil => simp [updateP]
  | cons b l ih =>
    by_cases hb : b.end_utc.isNone
    · simp [updateP, hb, runningCount_cons, closeWith]
    · simp [updateP, hb, runningCount_cons]
      omega

theorem runningCount_eraseP_le (p : Session → Bool) (l : List Session) :
    runningCount (l.eraseP p) ≤ runningCount l :=
  List.Sublist.length_le (List.Sublist.filter _ (List.eraseP_sublist l))

theorem updateP_length (p : α → Bool) (f : α → α) (l : List α) :
    (updateP p f l).length = l.length := by
  induction l with
  | nil => rfl
  | cons a l ih => by_cases h : p a <;> simp [updateP, h, ih]

theorem find?_updateP (p : α → Bool) (f : α → α) (l : List α)
    (hpf : ∀ a, p (f a) = p a) :
    (updateP p f l).find? p = (l.find? p).map f := by
  induction l with
  | nil => simp [updateP]
  | cons a l ih =>
    by_cases h : p a
    · simp only [updateP, if_pos h]
      rw [List.find?_cons_of_pos _ (by rw [hpf]; exact h), List.find?_cons_of_pos _ h]
      rfl
    · simp only [updateP, if_neg h]
      rw [List.find?_cons_of_neg _ h, List.find?_cons_of_neg _ h]
      exact ih

theorem mem_updateP_of_find? (p : α → Bool) (f : α → α) (l : List α) (a : α)
    (h : l.find? p = some a) : f a ∈ updateP p f l := by
  induction l with
  | nil => simp at h
  | cons b l ih =>
    by_cases hb : p b
    · rw [List.find?_cons_of_pos _ hb] at h
      cases h
      simp [updateP, hb]
    · rw [List.find?_cons_of_neg _ hb] at h
      simp only [updateP, if_neg hb]
      exact List.mem_cons_of_mem _ (ih h)


/-! ### Invariant preservation under Start/Stop/Delete -/

instance (db : DB) : Decidable (atMostOneRunning db) := by
  unfold atMostOneRunning; infer_instance

theorem applyOp_preserves (db : DB) (op : Op) (h : atMostOneRunning db) :
    atMostOneRunning (applyOp db op) := by
  cases op with
  | start cid d now nid =>
    by_cases ha : (get_active_session db).isSome
    · have hstep : applyOp db (Op.start cid d now nid) = db := by
        unfold applyOp start_session; simp [ha]
      rw [hstep]; exact h
    · by_cases hc : truthyInt cid && (get_category_by_id db (cid.getD 0)).isNone
      · have hstep : applyOp db (Op.start cid d now nid) = db := by
          unfold applyOp start_session; simp [ha, hc]
        rw [hstep]; exact h
      · have hstep : applyOp db (Op.start cid d now nid) =
            { db with sessions := db.sessions ++ [mkSession nid cid d now] } := by
          unfold applyOp start_session; simp [ha, hc]
        have h0 : runningCount db.sessions = 0 :=
          runningCount_eq_zero_of_none _ (by
            have := Option.not_isSome_iff_eq_none.mp ha
            simpa [get_active_session] using this)
        rw [hstep]
        show runningCount (db.sessions ++ [mkSession nid cid d now]) ≤ 1
        rw [runningCount_append, h0]
        simp [runningCount, mkSession, List.filter]
  | stop now =>
    cases hf : get_active_session db with
    | none =>
      have hstep : applyOp db (Op.stop now) = db := by
        unfold applyOp stop_session; simp [hf]
      rw [hstep]; exact h
    | some a =>
      have hstep : applyOp db (Op.stop now) = { db with sessions :=
          (updateP (fun s => s.end_utc.isNone) (closeWith now) db.sessions) } := by
        unfold applyOp stop_session; simp [hf]
      rw [hstep]
      show runningCount
        (updateP (fun s => s.end_utc.isNone) (closeWith now) db.sessions) ≤ 1
      exact le_trans (runningCount_updateP_close_le now db.sessions) h
  | delete sid =>
    cases hf : db.sessions.find? (fun s => s.id == sid) with
    | none =>
      have hstep : applyOp db (Op.delete sid) = db := by
        unfold applyOp delete_session; simp [hf]
      rw [hstep]; exact h
    | some s =>
      by_cases he : s.end_utc.isNone
      · have hstep : applyOp db (Op.delete sid) = db := by
          unfold applyOp delete_session; simp [hf, he]
        rw [hstep]; exact h
      · have hstep : applyOp db (Op.delete sid) = { db with sessions :=
            (db.sessions.eraseP (fun t => t.id == sid)) } := by
          unfold applyOp delete_session; simp [hf, he]
        rw [hstep]
        show runningCount (db.sessions.eraseP (fun t => t.id == sid)) ≤ 1
        exact le_trans (runningCount_eraseP_le _ _) h

theorem applyOps_preserves (db : DB) (ops : List Op) (h : atMostOneRunning db) :
    atMostOneRunning (applyOps db ops) := by
  induction ops generalizing db with
  | nil => exact h
  | cons op ops ih => exact ih _ (applyOp_preserves db op h)

/-! ### Shared concrete values used in witnesses and counterexamples -/

def nowC2 : DT := ⟨2026, 1, 27, 15, 53, 55, 0, none⟩

def sessA : Session :=
  ⟨1, none, "", "2024-01-01T00:00:00Z", none,
   "2024-01-01T00:00:00Z", "2024-01-01T00:00:00Z"⟩

def sessB : Session :=
  ⟨2, none, "", "2024-01-01T01:00:00Z", some "2024-01-01T02:00:00Z",
   "2024-01-01T01:00:00Z", "2024-01-01T01:00:00Z"⟩

def dbC2 : DB := ⟨[], [sessA, sessB]⟩

def dbC2' : DB := ⟨[],
  [sessA,
   ⟨2, none, "", "2024-01-01T01:00:00Z", none,
    "2024-01-01T01:00:00Z", "2026-01-27T15:53:55Z"⟩]⟩

/-! ### Claim C1 -/

/-- C1: for every sequence of StartSession, StopSession and DeleteSession
calls starting from a ledger satisfying the at-most-one-running-session
invariant, the invariant holds at every observation point; moreover
StartSession refuses with the running-conflict error when a running session
exists and otherwise, on success, appends exactly one new session whose
`end_utc` is null; StopSession on success leaves no running session (it
closed the unique one); and DeleteSession refuses to remove a running
session. -/
theorem C1_active_session_invariant (db : DB) (ops : List Op)
    (h : atMostOneRunning db) :
    atMostOneRunning (applyOps db ops) ∧
    (∀ cid d now nid, get_active_session db ≠ none →
      start_session cid d now nid db = .error errAlreadyRunning) ∧
    (∀ cid d now nid db', start_session cid d now nid db = .ok db' →
      db'.sessions = db.sessions ++ [mkSession nid cid d now] ∧
      (mkSession nid cid d now).end_utc = none) ∧
    (∀ now db', stop_session now db = .ok db' → runningCount db'.sessions = 0) ∧
    (∀ sid s, db.sessions.find? (fun t => t.id == sid) = some s →
      s.end_utc = none → delete_session sid db = .error errDeleteActive) := by
  refine ⟨applyOps_preserves db ops h, ?_, ?_, ?_, ?_⟩
  · intro cid d now nid hne
    have ha : (get_active_session db).isSome := Option.ne_none_iff_isSome.mp hne
    unfold start_session
    simp [ha]
  · intro cid d now nid db' hok
    unfold start_session at hok
    by_cases ha : (get_active_session db).isSome
    · simp [ha] at hok
    · by_cases hc : truthyInt cid && (get_category_by_id db (cid.getD 0)).isNone
      · simp [ha, hc] at hok
      · simp [ha, hc] at hok
        exact ⟨by rw [← hok], rfl⟩
  · intro now db' hok
    unfold stop_session at hok
    cases hf : get_active_session db with
    | none => rw [hf] at hok; simp at hok
    | some a =>
      rw [hf] at hok
      simp at hok
      have hcl := runningCount_updateP_close now db.sessions a
        (by simpa [get_active_session] using hf)
      have hb : runningCount db.sessions ≤ 1 := h
      rw [← hok]
      show runningCount
        (updateP (fun s => s.end_utc.isNone) (closeWith now) db.sessions) = 0
      omega
  · intro sid s hfind hend
    unfold delete_session
    rw [hfind]
    simp [hend]

/-- Witness for C1 at a concrete ledger and call sequence. -/
theorem C1_witness : atMostOneRunning (applyOps ⟨[], []⟩
    [Op.start none "w" ⟨2026, 1, 1, 9, 0, 0, 0, none⟩ 1,
     Op.stop ⟨2026, 1, 1, 10, 0, 0, 0, none⟩,
     Op.delete 1]) :=
  (C1_active_session_invariant ⟨[], []⟩ _ (by decide)).1

/-! ### Claim C2 -/

/-- C2: `edit_session` does not re-check the single-running-session
invariant: on a ledger with one running and one closed session, editing the
closed session without supplying `end_utc` succeeds and leaves two sessions
with `end_utc` null. -/
theorem C2_edit_two_running :
    atMostOneRunning dbC2 ∧
    edit_session 2 none "" "2024-01-01T01:00:00Z" none nowC2 dbC2 = .ok dbC2' ∧
    runningCount dbC2'.sessions = 2 := by decide

/-! ### Claim C3 -/

/-- C3 counterexample: `stop_session` on a ledger with no running session
raises status 400 ("No active session to stop."), not the 404 that the
specification's own error mapping assigns to `NotFoundError`. -/
theorem C3_counterexample :
    stop_session nowC2 ⟨[], []⟩ = .error errNoActive ∧
    errNoActive.status = 400 ∧ errNoActive.status ≠ 404 := by decide

/-- C3 amended: `stop_session` with no running session fails with the
status-400 no-active-session error; when a running session exists it
succeeds, and the previously running session is updated in place so that
its `end_utc` equals the stop instant's stamp (no longer null) and its
`updated_utc` equals the same stamp. -/
theorem C3_amended_stop (now : DT) (db : DB) :
    (get_active_session db = none → stop_session now db = .error errNoActive) ∧
    (∀ a, get_active_session db = some a →
      stop_session now db = .ok { db with sessions :=
        (updateP (fun s => s.end_utc.isNone) (closeWith now) db.sessions) } ∧
      closeWith now a ∈ updateP (fun s => s.end_utc.isNone) (closeWith now) db.sessions ∧
      (closeWith now a).end_utc = some (stamp (asNaive now)) ∧
      (closeWith now a).end_utc ≠ none ∧
      (closeWith now a).updated_utc = stamp (asNaive now) ∧
      (closeWith now a).id = a.id ∧
      (closeWith now a).start_utc = a.start_utc) := by
  constructor
  · intro hnone
    unfold stop_session
    rw [hnone]
  · intro a ha
    refine ⟨by unfold stop_session; rw [ha], ?_, rfl, by simp [closeWith],
      rfl, rfl, rfl⟩
    exact mem_updateP_of_find? _ _ _ _ (by simpa [get_active_session] using ha)

def sessW0 : Session :=
  ⟨1, none, "", "2024-01-01T00:00:00Z", none,
   "2024-01-01T00:00:00Z", "2024-01-01T00:00:00Z"⟩

def dbRunW : DB := ⟨[], [sessW0]⟩

/-- Witness for the amended C3 at a concrete running ledger. -/
theorem C3_amended_stop_witness :
    stop_session nowC2 dbRunW = .ok { dbRunW with sessions :=
      (updateP (fun s => s.end_utc.isNone) (closeWith nowC2) dbRunW.sessions) } :=
  ((C3_amended_stop nowC2 dbRunW).2 sessW0 (by decide)).1

/-! ### Claim C4 -/

theorem find_active_after_deactivate (cid : Int) (l : List Category)
    (huniq : (l.filter (fun c => c.id == cid)).length ≤ 1) :
    (updateP (fun c => c.id == cid) (fun c => { c with is_active := 0 }) l).find?
      (fun c => c.id == cid && c.is_active == 1) = none := by
  induction l with
  | nil => rfl
  | cons b l ih =>
    by_cases hb : (b.id == cid) = true
    · simp only [updateP, if_pos hb]
      rw [List.find?_cons_of_neg _ (by simp)]
      have hfl : List.filter (fun c => c.id == cid) l = [] := by
        rw [List.filter_cons] at huniq
        simp only [hb, if_true, List.length_cons] at huniq
        rw [← List.length_eq_zero]
        omega
      rw [List.find?_eq_none]
      intro x hx
      have hxid : (x.id == cid) = false := by
        by_contra hcon
        have hmem : x ∈ List.filter (fun c => c.id == cid) l :=
          List.mem_filter.mpr ⟨hx, by simpa using hcon⟩
        rw [hfl] at hmem
        simp at hmem
      simp [hxid]
    · simp only [updateP, if_neg hb]
      rw [List.find?_cons_of_neg _ (by simp [hb])]
      apply ih
      rw [List.filter_cons] at huniq
      simpa only [hb, if_false, Bool.false_eq_true] using huniq

def catW : Category := ⟨1, "Coding", 1, 10, "2024-01-01T00:00:00Z"⟩

def catWDeact : Category := ⟨1, "Coding", 0, 10, "2024-01-01T00:00:00Z"⟩

def sessCatW : Session :=
  ⟨1, some 1, "", "2024-01-01T00:00:00Z", some "2024-01-01T01:00:00Z", "c", "u"⟩

/-- C4 counterexample: after deactivating the category, the row still
exists and `listActive` excludes it, but the session referencing it is
displayed with the fallback "(No Category)" instead of resolving the
historical name, because the only lookup (`get_category_by_id`) filters on
the active flag. -/
theorem C4_counterexample :
    delete_category 1 ⟨[catW], [sessCatW]⟩ = .ok ⟨[catWDeact], [sessCatW]⟩ ∧
    sessCatW.category_id = some catW.id ∧
    displayCategoryName ⟨[catW], [sessCatW]⟩ sessCatW = "Coding" ∧
    listActive ⟨[catWDeact], [sessCatW]⟩ = [] ∧
    displayCategoryName ⟨[catWDeact], [sessCatW]⟩ sessCatW = "(No Category)" ∧
    "(No Category)" ≠ catW.name := by decide

/-- C4 amended: deactivation keeps the row count unchanged (never a
physical delete) and `listActive` excludes the deactivated id, but a
session referencing the deactivated category is displayed with the
"(No Category)" fallback, since category resolution for display goes
through the active-only lookup. -/
theorem C4_amended_soft_delete (db : DB) (cid : Int) (cat : Category) (db' : DB)
    (hfind : db.categories.find? (fun c => c.id == cid) = some cat)
    (huniq : (db.categories.filter (fun c => c.id == cid)).length ≤ 1)
    (hdel : delete_category cid db = .ok db') :
    db'.categories.length = db.categories.length ∧
    (∀ c ∈ listActive db', (c.id == cid) = false) ∧
    (∀ s : Session, s.category_id = some cid → cid ≠ 0 →
      displayCategoryName db' s = "(No Category)") := by
  unfold delete_category at hdel
  rw [hfind] at hdel
  simp at hdel
  subst hdel
  refine ⟨updateP_length _ _ _, ?_, ?_⟩
  · intro c hc
    have hmem := List.mem_filter.mp hc
    by_contra hcon
    have hnone := find_active_after_deactivate cid db.categories huniq
    rw [List.find?_eq_none] at hnone
    have hx := hnone c hmem.1
    simp [hmem.2] at hx
    simp [hx] at hcon
  · intro s hs hcid0
    have hgone : get_category_by_id
        { db with categories := (updateP (fun c => c.id == cid)
          (fun c => { c with is_active := 0 }) db.categories) } cid = none :=
      find_active_after_deactivate cid db.categories huniq
    unfold displayCategoryName
    simp [truthyInt, hs, hcid0, hgone]

/-- Witness for the amended C4 at a concrete store. -/
theorem C4_amended_witness :
    (⟨[catWDeact], [sessCatW]⟩ : DB).categories.length =
    (⟨[catW], [sessCatW]⟩ : DB).categories.length :=
  (C4_amended_soft_delete ⟨[catW], [sessCatW]⟩ 1 catW ⟨[catWDeact], [sessCatW]⟩
    (by decide) (by decide) (by decide)).1

/-! ### Claim C5 -/

def nowMicroW : DT := ⟨2026, 1, 27, 15, 53, 55, 558756, none⟩

/-- C5 counterexample: a session started while the clock reads a nonzero
microsecond value persists `start_utc` (and likewise `created_utc` and
`updated_utc`) with six fractional-second digits, violating the claimed
seconds-precision format. -/
theorem C5_counterexample :
    start_session none "" nowMicroW 1 ⟨[], []⟩ =
      .ok ⟨[], [mkSession 1 none "" nowMicroW]⟩ ∧
    (mkSession 1 none "" nowMicroW).start_utc = "2026-01-27T15:53:55.558756Z" ∧
    secondsPrecisionZ (mkSession 1 none "" nowMicroW).start_utc = false := by decide

/-- C5 amended: only the edit handler's normalized `start_utc`/`end_utc`
always have the seconds-precision trailing-`Z` format; every
`utcnow`-stamped field (the stamps written by start, stop and edit's
`updated_utc`) has that format exactly when the clock's microsecond
component is zero, and otherwise carries fractional seconds. -/
theorem C5_amended_format :
    (∀ s d, isoparse s = some d → secondsPrecisionZ (normalize d) = true) ∧
    (∀ now : DT, secondsPrecisionZ (stamp (asNaive now)) = true ↔
      now.microsecond = 0) := by
  constructor
  · intro s d _
    exact secondsPrecisionZ_normalize d
  · intro now
    by_cases hm : now.microsecond = 0
    · simp [hm, secondsPrecisionZ_stamp_nomicro (asNaive now) hm rfl]
    · simp [hm, secondsPrecisionZ_stamp_micro (asNaive now) hm rfl]

/-- Witness for the amended C5 at a concrete parsed timestamp. -/
theorem C5_amended_format_witness :
    secondsPrecisionZ (normalize ⟨2024, 1, 1, 0, 0, 0, 0, some 0⟩) = true :=
  C5_amended_format.1 "2024-01-01T00:00:00Z" ⟨2024, 1, 1, 0, 0, 0, 0, some 0⟩
    (by decide)

/-! ### Claim C6 -/

/-- C6: for an existing session, `edit_session` fails with the
status-400 invalid-format error whenever `start_utc` does not parse;
whenever both timestamps parse and the supplied end compares less-or-equal
to the start it fails with the status-400 end-not-after error (the model's
error result leaves the ledger unchanged, matching the source where
validation precedes any mutation); and with a strictly later end the time
validation passes (the call either succeeds or fails only on category
validation). -/
theorem C6_edit_time_validation (sid : Int) (cid : Option Int) (descr su : String)
    (eu : Option String) (now : DT) (db : DB) (s0 : Session)
    (hs : db.sessions.find? (fun s => s.id == sid) = some s0) :
    (isoparse su = none →
      edit_session sid cid descr su eu now db = .error errInvalidDatetime) ∧
    (∀ sdt e edt, isoparse su = some sdt → truthyStr eu = some e →
      isoparse e = some edt → pyLE? edt sdt = some true →
      edit_session sid cid descr su eu now db = .error errEndNotAfter) ∧
    (∀ sdt e edt, isoparse su = some sdt → truthyStr eu = some e →
      isoparse e = some edt → pyLE? edt sdt = some false →
      (∃ db', edit_session sid cid descr su eu now db = .ok db') ∨
        edit_session sid cid descr su eu now db = .error errCategoryNotFound) := by
  refine ⟨?_, ?_, ?_⟩
  · intro hp
    unfold edit_session
    rw [hs, hp]
  · intro sdt e edt hp he hpe hle
    unfold edit_session editEndResult
    simp only [hs, hp, he, hpe, hle]
  · intro sdt e edt hp he hpe hle
    unfold edit_session editEndResult
    simp only [hs, hp, he, hpe, hle]
    by_cases hc : truthyInt cid && (get_category_by_id db (cid.getD 0)).isNone
    · right; simp [hc]
    · left
      rw [if_neg hc]
      exact ⟨_, rfl⟩

/-- Witness for C6: an equal end and start timestamp is rejected. -/
theorem C6_witness :
    edit_session 2 none "" "2024-01-01T02:00:00Z" (some "2024-01-01T02:00:00Z")
      nowC2 dbC2 = .error errEndNotAfter :=
  (C6_edit_time_validation 2 none "" "2024-01-01T02:00:00Z"
      (some "2024-01-01T02:00:00Z") nowC2 dbC2 sessB (by decide)).2.1
    ⟨2024, 1, 1, 2, 0, 0, 0, some 0⟩ "2024-01-01T02:00:00Z"
    ⟨2024, 1, 1, 2, 0, 0, 0, some 0⟩ (by decide) (by decide) (by decide) (by decide)

/-! ### Claim C7 -/

def nowC7 : DT := ⟨2024, 1, 1, 1, 30, 0, 0, none⟩

/-- C7 counterexample: with a parseable `Z`-suffixed start (the exact
format the application itself persists) and no end, `format_time_diff`
returns the sentinel "00:00:00" even though the current UTC instant is 90
minutes later — the aware parsed start cannot be subtracted from the naive
`utcnow()`, so the claim that the duration is computed against the current
instant fails. -/
theorem C7_counterexample :
    isoparse "2024-01-01T00:00:00Z" = some ⟨2024, 1, 1, 0, 0, 0, 0, some 0⟩ ∧
    format_time_diff "2024-01-01T00:00:00Z" none nowC7 = "00:00:00" ∧
    renderHMS (Int.tdiv (nowC7.instantMicro -
      DT.instantMicro ⟨2024, 1, 1, 0, 0, 0, 0, some 0⟩) 1000000) = "01:30:00" := by
  decide

/-- C7 amended: the concrete example renders "01:30:00"; an unparsable
start always yields the sentinel "00:00:00"; with no end supplied the
current UTC instant is used as the end, so a naive parsed start yields the
elapsed time against `now`, while an offset-aware parsed start (such as any
`Z`-suffixed value) makes the subtraction raise and yields the sentinel. -/
theorem C7_amended_duration :
    (∀ now, format_time_diff "2024-01-01T00:00:00Z"
      (some "2024-01-01T01:30:00Z") now = "01:30:00") ∧
    (∀ s e now, isoparse s = none → format_time_diff s e now = "00:00:00") ∧
    (∀ s d now, isoparse s = some d → d.tzoffset = none →
      format_time_diff s none now =
        renderHMS (Int.tdiv (now.naiveMicro - d.naiveMicro) 1000000)) ∧
    (∀ s d now, isoparse s = some d → d.tzoffset ≠ none →
      format_time_diff s none now = "00:00:00") := by
  refine ⟨fun now => rfl, ?_, ?_, ?_⟩
  · intro s e now hp
    unfold format_time_diff
    rw [hp]
  · intro s d now hp ht
    unfold format_time_diff
    rw [hp]
    simp [pySub?, asNaive, ht, DT.naiveMicro, DT.toDays]
  · intro s d now hp ht
    obtain ⟨off, hoff⟩ := Option.ne_none_iff_exists'.mp ht
    unfold format_time_diff
    rw [hp]
    simp [pySub?, asNaive, hoff]

/-- Witness for the amended C7: unparsable start yields the sentinel. -/
theorem C7_witness :
    format_time_diff "garbage" none nowC7 = "00:00:00" :=
  C7_amended_duration.2.1 "garbage" none nowC7 (by decide)

/-! ### Claim C8 -/

/-- C8: a read of the session immediately after a successful
`edit_session` returns exactly the supplied `category_id` and
`description`, the normalized supplied `start_utc` and `end_utc` (offset
and microseconds stripped, `Z` appended; absent end stored as null), with
`updated_utc` refreshed to the edit instant's stamp and `created_utc`
unchanged. -/
theorem C8_edit_roundtrip (sid : Int) (cid : Option Int) (descr su : String)
    (eu : Option String) (now : DT) (db db' : DB) (s0 : Session) (sdt : DT)
    (endNorm : Option String)
    (hf : db.sessions.find? (fun s => s.id == sid) = some s0)
    (hp : isoparse su = some sdt)
    (her : editEndResult sdt eu = .ok endNorm)
    (h : edit_session sid cid descr su eu now db = .ok db') :
    db'.sessions.find? (fun s => s.id == sid) =
      some (applyEditFields cid descr (normalize sdt) endNorm now s0) ∧
    (applyEditFields cid descr (normalize sdt) endNorm now s0).category_id = cid ∧
    (applyEditFields cid descr (normalize sdt) endNorm now s0).description = descr ∧
    (applyEditFields cid descr (normalize sdt) endNorm now s0).start_utc =
      normalize sdt ∧
    (applyEditFields cid descr (normalize sdt) endNorm now s0).end_utc = endNorm ∧
    (applyEditFields cid descr (normalize sdt) endNorm now s0).updated_utc =
      stamp (asNaive now) ∧
    (applyEditFields cid descr (normalize sdt) endNorm now s0).created_utc =
      s0.created_utc ∧
    (truthyStr eu = none → endNorm = none) ∧
    (∀ e edt, truthyStr eu = some e → isoparse e = some edt →
      endNorm = some (normalize edt)) := by
  unfold edit_session at h
  simp only [hf, hp, her] at h
  by_cases hc : truthyInt cid && (get_category_by_id db (cid.getD 0)).isNone
  · rw [if_pos hc] at h
    simp at h
  · rw [if_neg hc] at h
    simp only [Except.ok.injEq] at h
    refine ⟨?_, rfl, rfl, rfl, rfl, rfl, rfl, ?_, ?_⟩
    · rw [← h]
      show (updateP (fun s => s.id == sid)
        (applyEditFields cid descr (normalize sdt) endNorm now) db.sessions).find?
          (fun s => s.id == sid) = _
      rw [find?_updateP (fun s => s.id == sid)
        (applyEditFields cid descr (normalize sdt) endNorm now) db.sessions
        (fun a => rfl), hf]
      rfl
    · intro heu
      unfold editEndResult at her
      rw [heu] at her
      injection her with h2
      exact h2.symm
    · intro e edt he hpe
      unfold editEndResult at her
      cases hle : pyLE? edt sdt with
      | none => simp [he, hpe, hle] at her
      | some b =>
        cases b with
        | true => simp [he, hpe, hle] at her
        | false =>
          simp only [he, hpe, hle, Except.ok.injEq] at her
          exact her.symm

def sdtC8 : DT := ⟨2024, 1, 1, 1, 0, 0, 0, some 0⟩

def dbC8' : DB := ⟨[],
  [sessA, applyEditFields none "x" (normalize sdtC8)
    (some "2024-01-01T02:00:00Z") nowC2 sessB]⟩

/-- Witness for C8 at a concrete edit of the closed session. -/
theorem C8_witness :
    dbC8'.sessions.find? (fun s => s.id == 2) =
      some (applyEditFields none "x" (normalize sdtC8)
        (some "2024-01-01T02:00:00Z") nowC2 sessB) :=
  (C8_edit_roundtrip 2 none "x" "2024-01-01T01:00:00Z"
    (some "2024-01-01T02:00:00Z") nowC2 dbC2 dbC8' sessB sdtC8
    (some "2024-01-01T02:00:00Z") (by decide) (by decide) (by decide)
    (by decide)).1

/-! ### Claim C9 -/

def dbCatA : DB := ⟨[mkCategory 1 "A" 10 nowC2], []⟩

def dbCatAB : DB := ⟨[mkCategory 1 "A" 10 nowC2, mkCategory 2 "B" 20 nowC2], []⟩

/-- C9: a successful `add_category` appends exactly one row whose
`sort_order` is 10 when the table was empty and `max(existing) + 10`
otherwise; concretely, two successive additions to an empty store get
sort orders 10 and 20. -/
theorem C9_sort_order (name : String) (now : DT) (nid : Int) (db db' : DB)
    (h : add_category name now nid db = .ok db') :
    (db'.categories = db.categories ++
      [mkCategory nid (pyStrip name) (nextSortVal db.categories) now] ∧
     (db.categories = [] → nextSortVal db.categories = 10) ∧
     (∀ m, (db.categories.map (·.sort_order)).max? = some m →
       nextSortVal db.categories = m + 10)) ∧
    (add_category "A" nowC2 1 ⟨[], []⟩ = .ok dbCatA ∧
     add_category "B" nowC2 2 dbCatA = .ok dbCatAB ∧
     dbCatA.categories.map (·.sort_order) = [10] ∧
     dbCatAB.categories.map (·.sort_order) = [10, 20]) := by
  constructor
  · unfold add_category at h
    by_cases h1 : pyStrip name = ""
    · simp [h1] at h
    · by_cases h2 : (db.categories.find? (fun c => c.name == pyStrip name)).isSome
      · simp [h1, h2] at h
      · simp [h1, h2] at h
        refine ⟨by rw [← h], ?_, ?_⟩
        · intro hemp
          simp [nextSortVal, hemp]
        · intro m hm
          simp [nextSortVal, hm]
  · exact ⟨by decide, by decide, by decide, by decide⟩

/-- Witness for C9 at a concrete addition to the empty store. -/
theorem C9_witness :
    dbCatA.categories = ([] : List Category) ++
      [mkCategory 1 (pyStrip "A") (nextSortVal []) nowC2] :=
  (C9_sort_order "A" nowC2 1 ⟨[], []⟩ dbCatA (by decide)).1.1

/-! ### Claim C10 -/

/-- C10: with `category_id = 0`, the truthiness check treats the value as
absent, so both `start_session` (on a ledger with no running session) and
`edit_session` (on an existing session) skip category validation and
succeed, storing `category_id = 0`, even though no active category with id
0 exists. -/
theorem C10_category_zero (db : DB) (descr su : String) (now : DT)
    (nid sid : Int)
    (hact : get_active_session db = none)
    (hnocat : get_category_by_id db 0 = none) :
    (start_session (some 0) descr now nid db =
      .ok { db with sessions := db.sessions ++ [mkSession nid (some 0) descr now] } ∧
     (mkSession nid (some 0) descr now).category_id = some 0) ∧
    (∀ s0 sdt, db.sessions.find? (fun s => s.id == sid) = some s0 →
      isoparse su = some sdt →
      edit_session sid (some 0) descr su none now db =
        .ok { db with sessions := (updateP (fun s => s.id == sid)
          (applyEditFields (some 0) descr (normalize sdt) none now) db.sessions) } ∧
      (applyEditFields (some 0) descr (normalize sdt) none now s0).category_id =
        some 0) := by
  constructor
  · refine ⟨?_, rfl⟩
    unfold start_session
    simp [hact, truthyInt]
  · intro s0 sdt hf hp
    refine ⟨?_, rfl⟩
    unfold edit_session
    simp only [hf, hp]
    rfl

/-- Witness for C10: starting with category id 0 on an empty store. -/
theorem C10_witness :
    start_session (some 0) "d" nowC2 1 ⟨[], []⟩ =
      .ok { (⟨[], []⟩ : DB) with sessions :=
        ([] : List Session) ++ [mkSession 1 (some 0) "d" nowC2] } :=
  ((C10_category_zero ⟨[], []⟩ "d" "" nowC2 1 1 (by decide) (by decide)).1).1

end TimeTracker
